import Mathlib

/-!
# Kenya Law MCP — verification of the citation/extraction pipeline

Shallow embedding of the text-understanding pipeline of the Kenya Law MCP
repository:

* the citation grammar parser `parseCitation` and the tool
  `validateCitationTool` (src/tools/validate-citation.ts, quoted in README),
* the citation formatter `formatCitationTool` (src/tools/format-citation.ts),
* the fuzzy document resolver `resolveDocumentId` (src/utils/statute-id.ts),
* the structural HTML extractor `parseKenyaLawHtml` / `extractDefinitions`
  (scripts/lib/parser.ts).

Modelling conventions:

* JavaScript strings are modelled as `List Char` / `String`.  JS `.length`
  counts UTF-16 code units and Lean counts code points; all inputs considered
  here are BMP text, where the two coincide.
* The JavaScript regular expressions of the source are embedded by a small
  backtracking engine (`Rx`) producing the list of all matches in JS
  backtracking (DFS) order; "first full match" then coincides with the JS
  semantics of an anchored `^...$` pattern, and "first result" with an
  `^...`-anchored `String.match`.  Ordered alternation, greedy (`*`, `+`, `?`)
  and lazy (`+?`) repetition over single-character classes are exactly the
  constructs the source uses.
* Case-insensitive (`/i`) matching and SQL `LOWER` are modelled by ASCII case
  folding, which agrees with JS/SQLite on the ASCII inputs of this pipeline
  (SQLite's `LOWER` and default `LIKE` only fold `A`–`Z`).
* The SQLite store behind `@ansvar/mcp-sqlite` is modelled as a list of rows;
  `SELECT ... WHERE p LIMIT 1` / `.get` becomes `List.find?`.  SQLite's `LIKE`
  operator is case-insensitive for ASCII characters by default (no
  `case_sensitive_like` pragma is set anywhere in the repository), with `%`/`_`
  wildcards; it is modelled by `likeMatch`.
-/

namespace KenyaLaw

/-! ## A tiny backtracking regex engine

`Rx α` is a nondeterministic parser on `List Char` returning every possible
(match value, remaining input) pair, ordered by JS backtracking preference
(DFS with ordered alternation, greedy-first or lazy-first repetition). -/

def Rx (α : Type) : Type := List Char → List (α × List Char)

namespace Rx

def pur {α : Type} (a : α) : Rx α := fun s => [(a, s)]

def bnd {α β : Type} (p : Rx α) (f : α → Rx β) : Rx β := fun s =>
  (p s).flatMap fun x => f x.1 x.2

instance : Monad Rx where
  pure := pur
  bind := bnd

/-- Ordered alternation: all results of `p` are preferred over those of `q`. -/
def orelse {α : Type} (p q : Rx α) : Rx α := fun s => p s ++ q s

instance {α : Type} : HOrElse (Rx α) (Rx α) (Rx α) where
  hOrElse p q := orelse p (q ())

/-- A single-character class `[...]`. -/
def cls (f : Char → Bool) : Rx Char := fun s =>
  match s with
  | [] => []
  | c :: rest => if f c then [(c, rest)] else []

/-- Greedy `[c]*`: longest repetition first. -/
def manyG (f : Char → Bool) : Rx (List Char) := fun s =>
  match s with
  | [] => [([], [])]
  | c :: rest =>
    if f c then
      ((manyG f rest).map fun x => (c :: x.1, x.2)) ++ [([], c :: rest)]
    else [([], c :: rest)]

/-- Lazy `[c]*?`: shortest repetition first. -/
def manyL (f : Char → Bool) : Rx (List Char) := fun s =>
  match s with
  | [] => [([], [])]
  | c :: rest =>
    if f c then
      ([], c :: rest) :: ((manyL f rest).map fun x => (c :: x.1, x.2))
    else [([], c :: rest)]

/-- Greedy `[c]+`. -/
def many1G (f : Char → Bool) : Rx (List Char) := do
  let c ← cls f
  let cs ← manyG f
  pur (c :: cs)

/-- Lazy `[c]+?`. -/
def many1L (f : Char → Bool) : Rx (List Char) := do
  let c ← cls f
  let cs ← manyL f
  pur (c :: cs)

/-- Greedy `p?`: matching is preferred over skipping. -/
def opt {α : Type} (p : Rx α) : Rx (Option α) :=
  orelse (do let a ← p; pur (some a)) (pur none)

/-- A literal character. -/
def ch (c : Char) : Rx Unit := do
  let _ ← cls (fun d => d == c)
  pur ()

/-- ASCII case folding (what JS `/i` and SQLite do on the ASCII inputs here). -/
def lowAscii (c : Char) : Char :=
  if 'A' ≤ c ∧ c ≤ 'Z' then Char.ofNat (c.toNat + 32) else c

/-- A case-insensitive literal (the source regexes all carry the `/i` flag
where keywords are matched). -/
def litCI : List Char → Rx Unit
  | [] => pur ()
  | c :: cs => do
    let _ ← cls (fun d => lowAscii d == lowAscii c)
    litCI cs

/-- A case-sensitive literal. -/
def lit : List Char → Rx Unit
  | [] => pur ()
  | c :: cs => do
    let _ ← ch c
    lit cs

/-- End of input (`$`, JS without `/m`: the very end of the string). -/
def eoi : Rx Unit := fun s =>
  match s with
  | [] => [((), [])]
  | _ :: _ => []

/-- First full match of an `^...$`-anchored pattern, in JS backtracking
order. -/
def run {α : Type} (p : Rx α) (s : List Char) : Option α :=
  match (p s).filter (fun x => x.2.isEmpty) with
  | [] => none
  | x :: _ => some x.1

/-- First match of an `^...`-anchored pattern (`String.match` with `^`,
no `$`): the first backtracking result, remainder ignored. -/
def runPre {α : Type} (p : Rx α) (s : List Char) : Option α :=
  match p s with
  | [] => none
  | x :: _ => some x.1

end Rx

/-! ## Character classes of the source regexes -/

/-- JS `\s` (the whitespace characters relevant to this corpus). -/
def jsWs (c : Char) : Bool :=
  c == ' ' || c == '\t' || c == '\n' || c == '\r' ||
  c == '\u000b' || c == '\u000c' || c == '\u00a0' || c == '\ufeff'

/-- JS `\d`. -/
def jsDigit (c : Char) : Bool := '0' ≤ c && c ≤ '9'

/-- `[A-Za-z]`. -/
def asciiAlpha (c : Char) : Bool :=
  ('A' ≤ c && c ≤ 'Z') || ('a' ≤ c && c ≤ 'z')

/-- JS `.` without the `s` flag: any character but a line terminator. -/
def jsDot (c : Char) : Bool :=
  !(c == '\n' || c == '\r' || c == '\u2028' || c == '\u2029')

/-- JS `String.prototype.trim` (strips `\s` at both ends). -/
def trimJS (s : List Char) : List Char :=
  ((s.dropWhile jsWs).reverse.dropWhile jsWs).reverse

/-- ASCII-folding a whole string, as SQLite `LOWER` and (on the ASCII inputs
of this pipeline) JS `toLowerCase` do. -/
def lowerStr (s : List Char) : List Char := s.map Rx.lowAscii

/-! ## Citation grammar parser (`parseCitation`, validate-citation.ts)

The four source regexes, embedded one to one:

* `secFirst`: `/^(?:Section|s|sec\.?)\s*(\d+[A-Za-z]*)\s*(?:,|of(?:\s+the)?)\s+(.+)$/i`
* `artFirst`: `/^(?:Article|Art\.?)\s*(\d+[A-Za-z]*)\s*(?:,|of(?:\s+the)?)\s+(.+)$/i`
* `secLast` : `/^(.+?)[,;]?\s*(?:Section|s|sec\.?)\s*(\d+[A-Za-z]*)$/i`
* `artLast` : `/^(.+?)[,;]?\s*(?:Article|Art\.?)\s*(\d+[A-Za-z]*)$/i`
-/

/-- `(?:Section|s|sec\.?)` (ordered alternation, `/i`). -/
def secKw : Rx Unit :=
  Rx.orelse (Rx.litCI "Section".data)
    (Rx.orelse (Rx.litCI "s".data)
      (do Rx.litCI "sec".data; let _ ← Rx.opt (Rx.ch '.'); Rx.pur ()))

/-- `(?:Article|Art\.?)` (ordered alternation, `/i`). -/
def artKw : Rx Unit :=
  Rx.orelse (Rx.litCI "Article".data)
    (do Rx.litCI "Art".data; let _ ← Rx.opt (Rx.ch '.'); Rx.pur ())

/-- `(\d+[A-Za-z]*)` — the provision number token. -/
def numTok : Rx (List Char) := do
  let ds ← Rx.many1G jsDigit
  let ls ← Rx.manyG asciiAlpha
  Rx.pur (ds ++ ls)

/-- `\s*(?:,|of(?:\s+the)?)\s+` — the connector of the leading forms. -/
def ofConnector : Rx Unit := do
  let _ ← Rx.manyG jsWs
  Rx.orelse (Rx.ch ',')
    (do Rx.litCI "of".data
        let _ ← Rx.opt (do let _ ← Rx.many1G jsWs; Rx.litCI "the".data)
        Rx.pur ())
  let _ ← Rx.many1G jsWs
  Rx.pur ()

/-- `.replace(/^the\s+/i, '')` — strip one leading "the" plus whitespace. -/
def stripLeadingThe (s : List Char) : List Char :=
  match s with
  | a :: b :: c :: r :: rest =>
    if Rx.lowAscii a == 't' && Rx.lowAscii b == 'h' && Rx.lowAscii c == 'e' &&
        jsWs r then
      (r :: rest).dropWhile jsWs
    else s
  | _ => s

/-- Leading section form (`secFirst`); yields the raw capture groups
(number, rest). -/
def secFirstV : Rx (List Char × List Char) := do
  secKw
  let _ ← Rx.manyG jsWs
  let n ← numTok
  ofConnector
  let rest ← Rx.many1G jsDot
  Rx.eoi
  Rx.pur (n, rest)

/-- Leading article form (`artFirst`); raw capture groups (number, rest). -/
def artFirstV : Rx (List Char × List Char) := do
  artKw
  let _ ← Rx.manyG jsWs
  let n ← numTok
  ofConnector
  let rest ← Rx.many1G jsDot
  Rx.eoi
  Rx.pur (n, rest)

/-- Trailing section form (`secLast`, shared verbatim with the formatter);
raw capture groups (document ref, number). -/
def secLastV : Rx (List Char × List Char) := do
  let g1 ← Rx.many1L jsDot
  let _ ← Rx.opt (Rx.cls (fun c => c == ',' || c == ';'))
  let _ ← Rx.manyG jsWs
  secKw
  let _ ← Rx.manyG jsWs
  let n ← numTok
  Rx.eoi
  Rx.pur (g1, n)

/-- Trailing article form (`artLast`, shared verbatim with the formatter);
raw capture groups (document ref, number). -/
def artLastV : Rx (List Char × List Char) := do
  let g1 ← Rx.many1L jsDot
  let _ ← Rx.opt (Rx.cls (fun c => c == ',' || c == ';'))
  let _ ← Rx.manyG jsWs
  artKw
  let _ ← Rx.manyG jsWs
  let n ← numTok
  Rx.eoi
  Rx.pur (g1, n)

/-- The parse result of `parseCitation` (documentRef, optional sectionRef).
The TS function is typed `... | null` but every code path returns an object:
the final fallback takes the whole trimmed string as the document reference. -/
structure CitationParse where
  documentRef : String
  sectionRef : Option String
deriving DecidableEq, Repr

/-- `parseCitation` (validate-citation.ts): the four grammar shapes in source
order, then the whole-string-as-document-reference fallback. -/
def parseCitation (citation : String) : CitationParse :=
  let trimmed := trimJS citation.data
  match Rx.run secFirstV trimmed with
  | some (n, d) => ⟨String.mk (stripLeadingThe (trimJS d)), some (String.mk n)⟩
  | none =>
    match Rx.run artFirstV trimmed with
    | some (n, d) => ⟨String.mk (stripLeadingThe (trimJS d)), some (String.mk n)⟩
    | none =>
      match Rx.run secLastV trimmed with
      | some (d, n) => ⟨String.mk (trimJS d), some (String.mk n)⟩
      | none =>
        match Rx.run artLastV trimmed with
        | some (d, n) => ⟨String.mk (trimJS d), some (String.mk n)⟩
        | none => ⟨String.mk trimmed, none⟩

/-! ## Citation formatter (`formatCitationTool`, format-citation.ts)

A pure text transform; it reuses the trailing shapes `secLast`/`artLast`
verbatim and its own leading shapes with the looser connector `\s*[,;]?\s+`:

* `secFirst`: `/^(?:Section|s|sec\.?)\s*(\d+[A-Za-z]*)\s*[,;]?\s+(.+)$/i`
* `artFirst`: `/^(?:Article|Art\.?)\s*(\d+[A-Za-z]*)\s*[,;]?\s+(.+)$/i`
-/

/-- `\s*[,;]?\s+` — the connector of the formatter's leading forms. -/
def fmtConnector : Rx Unit := do
  let _ ← Rx.manyG jsWs
  let _ ← Rx.opt (Rx.cls (fun c => c == ',' || c == ';'))
  let _ ← Rx.many1G jsWs
  Rx.pur ()

/-- The formatter's leading section form; raw capture groups (number, rest). -/
def fmtSecFirst : Rx (List Char × List Char) := do
  secKw
  let _ ← Rx.manyG jsWs
  let n ← numTok
  fmtConnector
  let rest ← Rx.many1G jsDot
  Rx.eoi
  Rx.pur (n, rest)

/-- The formatter's leading article form; raw capture groups (number, rest). -/
def fmtArtFirst : Rx (List Char × List Char) := do
  artKw
  let _ ← Rx.manyG jsWs
  let n ← numTok
  fmtConnector
  let rest ← Rx.many1G jsDot
  Rx.eoi
  Rx.pur (n, rest)

/-- The presentation modes of `format_citation` (`format?: 'full' | 'short' |
'pinpoint'`). -/
inductive FmtMode
  | full
  | short
  | pinpoint
deriving DecidableEq, Repr

def FmtMode.str : FmtMode → String
  | .full => "full"
  | .short => "short"
  | .pinpoint => "pinpoint"

/-- The result record of `formatCitationTool`. -/
structure FormatCitationResult where
  original : String
  formatted : String
  format : String
deriving DecidableEq, Repr

/-- `law.split('(')[0]` — everything before the first `(`. -/
def beforeParen (s : List Char) : List Char := s.takeWhile (fun c => c ≠ '(')

/-- `const section = secFirst?.[1] ?? secLast?.[2] ?? artFirst?.[1] ??
artLast?.[2]` — the section token of `formatCitationTool`. -/
def fmtSection (t : List Char) : Option (List Char) :=
  ((((Rx.run fmtSecFirst t).map Prod.fst).orElse
      (fun _ => (Rx.run secLastV t).map Prod.snd)).orElse
    (fun _ => (Rx.run fmtArtFirst t).map Prod.fst)).orElse
    (fun _ => (Rx.run artLastV t).map Prod.snd)

/-- `const law = secFirst?.[2] ?? secLast?.[1] ?? artFirst?.[2] ??
artLast?.[1] ?? trimmed` — the law text of `formatCitationTool`. -/
def fmtLaw (t : List Char) : List Char :=
  (((((Rx.run fmtSecFirst t).map Prod.snd).orElse
      (fun _ => (Rx.run secLastV t).map Prod.fst)).orElse
    (fun _ => (Rx.run fmtArtFirst t).map Prod.snd)).orElse
    (fun _ => (Rx.run artLastV t).map Prod.fst)).getD t

/-- `const isArticle = !!(artFirst || artLast)`. -/
def fmtIsArticle (t : List Char) : Bool :=
  (Rx.run fmtArtFirst t).isSome || (Rx.run artLastV t).isSome

/-- `formatCitationTool` (format-citation.ts).  The section token and the law
text are each taken from the first of `secFirst`, `secLast`, `artFirst`,
`artLast` that matched (`??`-chains in the source); with no section token
every mode falls back to the (trimmed) law text. -/
def formatCitationTool (citation : String) (fmt? : Option FmtMode) :
    FormatCitationResult :=
  { original := citation,
    formatted :=
      match fmt?.getD .full, fmtSection (trimJS citation.data) with
      | .short, some n => "s " ++ String.mk n ++ ", " ++
          String.mk (trimJS (beforeParen (fmtLaw (trimJS citation.data))))
      | .pinpoint, some n => "s " ++ String.mk n
      | .full, some n =>
          (if fmtIsArticle (trimJS citation.data) then "Article"
            else "Section") ++ " " ++ String.mk n ++ ", " ++
            String.mk (fmtLaw (trimJS citation.data))
      | _, none => String.mk (fmtLaw (trimJS citation.data)),
    format := (fmt?.getD .full).str }

/-! ## Store model

The SQLite store is modelled as row lists; `SELECT ... LIMIT 1` / `.get`
becomes a first-match lookup in store order (`List.find?`). -/

/-- A `legal_documents` row (the columns the resolver/validator touch). -/
structure Document where
  id : String
  title : String
  short_name : String
  title_en : String
  status : String
deriving DecidableEq, Repr

/-- A `legal_provisions` row (the columns the validator's query touches). -/
structure Provision where
  document_id : String
  provision_ref : String
  «section» : String
deriving DecidableEq, Repr

/-- Case-sensitive "starts with". -/
def startsWithCS : List Char → List Char → Bool
  | [], _ => true
  | _ :: _, [] => false
  | a :: as, b :: bs => a == b && startsWithCS as bs

/-- Case-sensitive substring containment (`String.prototype.includes`). -/
def hasSub (needle : List Char) (hay : List Char) : Bool :=
  startsWithCS needle hay ||
    (match hay with
     | [] => false
     | _ :: t => hasSub needle t)

/-- SQLite's `LIKE` operator under its default behaviour (the repository sets
no `case_sensitive_like` pragma): `%` / `_` wildcards, comparisons
case-insensitive for ASCII characters.  Written with a structural fuel
argument so the kernel can evaluate it; every recursive call shrinks the
pattern or the string, so `pattern.length + string.length + 1` fuel always
suffices. -/
def likeMatchF : Nat → List Char → List Char → Bool
  | 0, _, _ => false
  | _ + 1, [], s => s.isEmpty
  | fuel + 1, p :: ps, s =>
    if p = '%' then
      likeMatchF fuel ps s ||
        (match s with
         | [] => false
         | _ :: s2 => likeMatchF fuel (p :: ps) s2)
    else if p = '_' then
      (match s with
       | [] => false
       | _ :: s2 => likeMatchF fuel ps s2)
    else
      (match s with
       | [] => false
       | c :: s2 => (Rx.lowAscii p == Rx.lowAscii c) && likeMatchF fuel ps s2)

def likeMatch (p s : List Char) : Bool :=
  likeMatchF (p.length + s.length + 1) p s

/-! ## Document resolver (`resolveDocumentId`, statute-id.ts) -/

/-- `resolveDocumentId` (statute-id.ts): empty guard, then the five-step
cascade — (1) `id = ?`; (2) `LOWER(title) = LOWER(?)`; (3)
`LOWER(short_name) = LOWER(?)`; (4) `title LIKE '%?%' OR short_name LIKE ...
OR title_en LIKE ...`; (5) the same with both sides through `LOWER`. -/
def resolveDocumentId (docs : List Document) (input : String) :
    Option String :=
  if (trimJS input.data).isEmpty then none
  else
    match docs.find? (fun d => d.id.data == trimJS input.data) with
    | some d => some d.id
    | none =>
      match docs.find?
          (fun d => lowerStr d.title.data == lowerStr (trimJS input.data)) with
      | some d => some d.id
      | none =>
        match docs.find? (fun d =>
            lowerStr d.short_name.data == lowerStr (trimJS input.data)) with
        | some d => some d.id
        | none =>
          match docs.find? (fun d =>
              likeMatch ('%' :: (trimJS input.data ++ ['%'])) d.title.data ||
                likeMatch ('%' :: (trimJS input.data ++ ['%']))
                  d.short_name.data ||
                likeMatch ('%' :: (trimJS input.data ++ ['%']))
                  d.title_en.data) with
          | some d => some d.id
          | none =>
            match docs.find? (fun d =>
                likeMatch (lowerStr ('%' :: (trimJS input.data ++ ['%'])))
                  (lowerStr d.title.data) ||
                  likeMatch (lowerStr ('%' :: (trimJS input.data ++ ['%'])))
                    (lowerStr d.short_name.data) ||
                  likeMatch (lowerStr ('%' :: (trimJS input.data ++ ['%'])))
                    (lowerStr d.title_en.data)) with
            | some d => some d.id
            | none => none

/-- The resolver as claim C4 words it (this definition follows the claim's
words, not the source, for the refinement comparison): the same cascade but
with a *case-sensitive* substring match at step (4) and a case-insensitive
substring match at step (5). -/
def resolveDocumentIdClaimed (docs : List Document) (input : String) :
    Option String :=
  if (trimJS input.data).isEmpty then none
  else
    match docs.find? (fun d => d.id.data == trimJS input.data) with
    | some d => some d.id
    | none =>
      match docs.find?
          (fun d => lowerStr d.title.data == lowerStr (trimJS input.data)) with
      | some d => some d.id
      | none =>
        match docs.find? (fun d =>
            lowerStr d.short_name.data == lowerStr (trimJS input.data)) with
        | some d => some d.id
        | none =>
          match docs.find? (fun d =>
              hasSub (trimJS input.data) d.title.data ||
                hasSub (trimJS input.data) d.short_name.data ||
                hasSub (trimJS input.data) d.title_en.data) with
          | some d => some d.id
          | none =>
            match docs.find? (fun d =>
                hasSub (lowerStr (trimJS input.data)) (lowerStr d.title.data) ||
                  hasSub (lowerStr (trimJS input.data))
                    (lowerStr d.short_name.data) ||
                  hasSub (lowerStr (trimJS input.data))
                    (lowerStr d.title_en.data)) with
            | some d => some d.id
            | none => none

/-- The resolver cascade as it actually behaves (the amended claim C4): four
steps, the fourth an ASCII-case-insensitive substring match (SQLite's default
`LIKE`); the source's step (5) repeats step (4) through `LOWER` and can never
produce a result when step (4) failed. -/
def resolveDocumentIdAmended (docs : List Document) (input : String) :
    Option String :=
  if (trimJS input.data).isEmpty then none
  else
    match docs.find? (fun d => d.id.data == trimJS input.data) with
    | some d => some d.id
    | none =>
      match docs.find?
          (fun d => lowerStr d.title.data == lowerStr (trimJS input.data)) with
      | some d => some d.id
      | none =>
        match docs.find? (fun d =>
            lowerStr d.short_name.data == lowerStr (trimJS input.data)) with
        | some d => some d.id
        | none =>
          match docs.find? (fun d =>
              likeMatch ('%' :: (trimJS input.data ++ ['%'])) d.title.data ||
                likeMatch ('%' :: (trimJS input.data ++ ['%']))
                  d.short_name.data ||
                likeMatch ('%' :: (trimJS input.data ++ ['%']))
                  d.title_en.data) with
          | some d => some d.id
          | none => none

/-! ## Citation validator (`validateCitationTool`, validate-citation.ts) -/

/-- The result record of `validateCitationTool` (optional fields are absent
unless the corresponding branch sets them). -/
structure ValidateCitationResult where
  valid : Bool
  citation : String
  normalized : Option String
  document_id : Option String
  document_title : Option String
  provision_ref : Option String
  status : Option String
  warnings : List String
deriving DecidableEq, Repr

/-- The status advisories pushed by `validateCitationTool`, in source order:
`repealed`, `amended` and `partially_suspended` each push one warning; every
other status (including `not_yet_in_force`) pushes none. -/
def statusWarnings (status : String) : List String :=
  if status == "repealed" then
    ["WARNING: This statute has been repealed."]
  else if status == "amended" then
    ["Note: This statute has been amended. Verify you are referencing the current version."]
  else if status == "partially_suspended" then
    ["Note: Certain sections of this statute have been suspended. Verify which sections are in force."]
  else []

/-- `validateCitationTool` (validate-citation.ts).  The source's
`if (!parsed)` branch (warning "Could not parse citation format") is
unreachable: `parseCitation` returns an object on every path.  The result is
`none` exactly when the unconditional `SELECT ... WHERE id = ?` after a
successful resolution finds no row — the TypeScript would then dereference
`undefined`; the safety theorem shows this cannot happen.  The `_metadata`
envelope (an external `db_metadata` read) is omitted. -/
def validateCitationTool (docs : List Document) (provs : List Provision)
    (citation : String) : Option ValidateCitationResult :=
  match resolveDocumentId docs (parseCitation citation).documentRef with
  | none =>
    some { valid := false, citation := citation, normalized := none,
           document_id := none, document_title := none, provision_ref := none,
           status := none,
           warnings := ["Document not found: \"" ++
             (parseCitation citation).documentRef ++ "\""] }
  | some docId =>
    match docs.find? (fun d => d.id == docId) with
    | none => none
    | some doc =>
      match (parseCitation citation).sectionRef with
      | some sref =>
        match provs.find? (fun p => p.document_id == docId &&
            (p.provision_ref == sref || p.provision_ref == "s" ++ sref ||
              p.provision_ref == "art" ++ sref || p.«section» == sref)) with
        | none =>
          some { valid := false, citation := citation, normalized := none,
                 document_id := some docId, document_title := some doc.title,
                 provision_ref := none, status := none,
                 warnings := statusWarnings doc.status ++
                   ["Provision \"" ++ sref ++ "\" not found in " ++ doc.title] }
        | some provision =>
          some { valid := true, citation := citation,
                 normalized := some ("Section " ++ sref ++ ", " ++ doc.title),
                 document_id := some docId, document_title := some doc.title,
                 provision_ref := some provision.provision_ref,
                 status := some doc.status,
                 warnings := statusWarnings doc.status }
      | none =>
        some { valid := true, citation := citation,
               normalized := some doc.title,
               document_id := some docId, document_title := some doc.title,
               provision_ref := none, status := some doc.status,
               warnings := statusWarnings doc.status }

/-! ## Structural extractor (`parseKenyaLawHtml`, scripts/lib/parser.ts) -/

/-- Length helper for termination proofs. -/
theorem len_dropWhile_le (p : Char → Bool) :
    ∀ l : List Char, (List.dropWhile p l).length ≤ l.length
  | [] => Nat.le_refl _
  | c :: rest => by
    by_cases h : p c
    · simp only [List.dropWhile_cons, h, if_true]
      exact Nat.le_succ_of_le (len_dropWhile_le p rest)
    · simp [List.dropWhile_cons, h]

/-- Consume an exact (case-sensitive) literal, as the non-`/i` scanner
regexes of the extractor do. -/
def dropLit : List Char → List Char → Option (List Char)
  | [], s => some s
  | _ :: _, [] => none
  | c :: cs, d :: ds => if c == d then dropLit cs ds else none

theorem dropLit_length_le :
    ∀ {l s r : List Char}, dropLit l s = some r → r.length ≤ s.length := by
  intro l
  induction l with
  | nil => intro s r h; cases h; exact Nat.le_refl _
  | cons c cs ih =>
    intro s r h
    cases s with
    | nil => cases h
    | cons d ds =>
      by_cases hc : (c == d) = true
      · simp only [dropLit, hc, if_true] at h
        exact Nat.le_succ_of_le (ih h)
      · simp [dropLit, hc] at h

theorem dropLit_length_lt {c : Char} {cs s r : List Char}
    (h : dropLit (c :: cs) s = some r) : r.length < s.length := by
  cases s with
  | nil => cases h
  | cons d ds =>
    by_cases hc : (c == d) = true
    · simp only [dropLit, hc, if_true] at h
      exact Nat.lt_succ_of_le (dropLit_length_le h)
    · simp [dropLit, hc] at h

/-- `\s+` (at least one whitespace character, then the maximal run: the
following literal in every use is non-whitespace, so this is exact). -/
def dropWs1 (s : List Char) : Option (List Char) :=
  match s with
  | [] => none
  | c :: rest => if jsWs c then some (rest.dropWhile jsWs) else none

theorem dropWs1_length_lt {s r : List Char} (h : dropWs1 s = some r) :
    r.length < s.length := by
  cases s with
  | nil => cases h
  | cons c rest =>
    by_cases hc : jsWs c = true
    · simp only [dropWs1, hc, if_true, Option.some.injEq] at h
      subst h
      exact Nat.lt_succ_of_le (len_dropWhile_le _ _)
    · simp [dropWs1, hc] at h

/-- `([^"]+)"` — a non-empty attribute value up to and including the closing
quote.  (`dropWhile (· ≠ \'"\')` can only stop at `"` or at the end, so the
head of a non-empty remainder is the closing quote.) -/
def takeQ1 (s : List Char) : Option (List Char × List Char) :=
  let v := s.takeWhile (fun c => c ≠ '"')
  match s.dropWhile (fun c => c ≠ '"') with
  | _ :: r => if v.isEmpty then none else some (v, r)
  | [] => none

/-- `[^"]*"` — a possibly empty attribute value up to and including the
closing quote. -/
def takeQ0 (s : List Char) : Option (List Char) :=
  match s.dropWhile (fun c => c ≠ '"') with
  | _ :: r => some r
  | [] => none

theorem dropWhile_cons_length {p : Char → Bool} {s rest : List Char} {c : Char}
    (h : s.dropWhile p = c :: rest) : rest.length < s.length := by
  have hle := len_dropWhile_le p s
  rw [h] at hle
  simp only [List.length_cons] at hle
  omega

theorem takeQ1_length_lt {s : List Char} {q : List Char × List Char}
    (h : takeQ1 s = some q) : q.2.length < s.length := by
  unfold takeQ1 at h
  rcases hd : s.dropWhile (fun c => c ≠ '"') with _ | ⟨c, rest⟩ <;>
    rw [hd] at h <;> dsimp only at h
  · cases h
  · by_cases he : (s.takeWhile (fun c => c ≠ '"')).isEmpty
    · rw [if_pos he] at h; cases h
    · rw [if_neg he] at h
      cases h
      exact dropWhile_cons_length hd

theorem takeQ0_length_lt {s : List Char} {r : List Char}
    (h : takeQ0 s = some r) : r.length < s.length := by
  unfold takeQ0 at h
  rcases hd : s.dropWhile (fun c => c ≠ '"') with _ | ⟨c, rest⟩ <;>
    rw [hd] at h <;> dsimp only at h
  · cases h
  · cases h
    exact dropWhile_cons_length hd

/-- Match the section boundary marker
`<section\s+class="akn-section"\s+id="([^"]+)"\s+data-eid="[^"]*">` at the
current position; returns the captured id and the rest of the input. -/
def matchSecTag (s : List Char) : Option (List Char × List Char) := do
  let s1 ← dropLit "<section".data s
  let s2 ← dropWs1 s1
  let s3 ← dropLit "class=\"akn-section\"".data s2
  let s4 ← dropWs1 s3
  let s5 ← dropLit "id=\"".data s4
  let q ← takeQ1 s5
  let s7 ← dropWs1 q.2
  let s8 ← dropLit "data-eid=\"".data s7
  let s9 ← takeQ0 s8
  let s10 ← dropLit ">".data s9
  some (q.1, s10)

theorem matchSecTag_length_lt {s : List Char} {q : List Char × List Char}
    (h : matchSecTag s = some q) : q.2.length < s.length := by
  unfold matchSecTag at h
  simp only [Option.bind_eq_bind, Option.bind_eq_some] at h
  obtain ⟨s1, h1, s2, h2, s3, h3, s4, h4, s5, h5, q6, h6, s7, h7, s8,
    h8, s9, h9, s10, h10, hfin⟩ := h
  have e1 := dropLit_length_lt h1
  have e2 := dropWs1_length_lt h2
  have e3 := dropLit_length_le h3
  have e4 := dropWs1_length_lt h4
  have e5 := dropLit_length_le h5
  have e6 := takeQ1_length_lt h6
  have e7 := dropWs1_length_lt h7
  have e8 := dropLit_length_le h8
  have e9 := takeQ0_length_lt h9
  have e10 := dropLit_length_le h10
  have hq : q.2 = s10 := by
    cases hfin
    rfl
  rw [hq]
  omega

/-- Scan the whole document for the (non-overlapping, leftmost) boundary
markers, recording each captured id and its start offset — the `while
(sectionPattern.exec(html))` loop of the source.  (On an empty input
`matchSecTag` fails, so trying the match first is equivalent to the source
loop.)  Structural fuel: by `matchSecTag_length_lt` every step consumes at
least one character, so `s.length + 1` fuel always suffices. -/
def findSectionsF : Nat → List Char → Nat → List (List Char × Nat)
  | 0, _, _ => []
  | fuel + 1, s, i =>
    match matchSecTag s with
    | some q => (q.1, i) :: findSectionsF fuel q.2 (i + (s.length - q.2.length))
    | none =>
      match s with
      | [] => []
      | _ :: rest => findSectionsF fuel rest (i + 1)

def findSections (s : List Char) (i : Nat) : List (List Char × Nat) :=
  findSectionsF (s.length + 1) s i

/-- Turn start offsets into content spans: each section runs from its own
start to the next section's start (or to the end of the document). -/
def spansFrom (html : List Char) : List (List Char × Nat) → List (List Char × List Char)
  | [] => []
  | (idv, st) :: rest =>
    let stop := match rest with
      | (_, nx) :: _ => nx
      | [] => html.length
    (idv, (html.drop st).take (stop - st)) :: spansFrom html rest

def sectionSpans (html : List Char) : List (List Char × List Char) :=
  spansFrom html (findSections html 0)

/-- Match `<h3>([^<]+)</h3>` at the current position (the heading capture). -/
def matchH3At (s : List Char) : Option (List Char) := do
  let s1 ← dropLit "<h3>".data s
  let v := s1.takeWhile (fun c => c ≠ '<')
  if v.isEmpty then none
  else
    let _ ← dropLit "</h3>".data (s1.dropWhile (fun c => c ≠ '<'))
    some v

/-- First match of `/<h3>([^<]+)<\/h3>/` anywhere in the section. -/
def firstH3 : List Char → Option (List Char)
  | [] => none
  | c :: rest =>
    match matchH3At (c :: rest) with
    | some v => some v
    | none => firstH3 rest

/-- Match `<h3>[^<]*</h3>` at the current position, returning what follows. -/
def matchH3StarAt (s : List Char) : Option (List Char) := do
  let s1 ← dropLit "<h3>".data s
  dropLit "</h3>".data (s1.dropWhile (fun c => c ≠ '<'))

/-- `.replace(/<h3>[^<]*<\/h3>/, '')` — drop the first h3 element. -/
def removeFirstH3Star : List Char → List Char
  | [] => []
  | c :: rest =>
    match matchH3StarAt (c :: rest) with
    | some r => r
    | none => c :: removeFirstH3Star rest

/-- `extractSectionNumber`: `heading.match(/^(\d+[A-Za-z]*)\.\s/)`. -/
def extractSectionNumber (heading : List Char) : Option (List Char) :=
  let ds := heading.takeWhile jsDigit
  let r1 := heading.dropWhile jsDigit
  let ls := r1.takeWhile asciiAlpha
  match r1.dropWhile asciiAlpha with
  | '.' :: w :: _ =>
    if ds.isEmpty then none
    else if jsWs w then some (ds ++ ls) else none
  | _ => none

/-- `extractSectionTitle`: `heading.replace(/^\d+[A-Za-z]*\.\s*/, '').trim()`. -/
def extractSectionTitle (heading : List Char) : List Char :=
  let ds := heading.takeWhile jsDigit
  let r1 := heading.dropWhile jsDigit
  match r1.dropWhile asciiAlpha with
  | '.' :: rest =>
    if ds.isEmpty then trimJS heading else trimJS (rest.dropWhile jsWs)
  | _ => trimJS heading

/-- `^part_([^_]+)__` — the part prefix of a section element id. -/
def partOfId (sectionId : List Char) : Option (List Char) :=
  match dropLit "part_".data sectionId with
  | none => none
  | some r =>
    let g := r.takeWhile (fun c => c ≠ '_')
    if g.isEmpty then none
    else if startsWithCS "__".data (r.dropWhile (fun c => c ≠ '_')) then some g
    else none

/-- `^chp_([^_]+)__` — the chapter prefix of a section element id. -/
def chpOfId (sectionId : List Char) : Option (List Char) :=
  match dropLit "chp_".data sectionId with
  | none => none
  | some r =>
    let g := r.takeWhile (fun c => c ≠ '_')
    if g.isEmpty then none
    else if startsWithCS "__".data (r.dropWhile (fun c => c ≠ '_')) then some g
    else none

/-- `extractChapter` (parser.ts): the grouping label derived purely from the
element-id prefix; ids not *starting* with `part_`/`chp_` yield none. -/
def extractChapter (sectionId : List Char) : Option String :=
  match partOfId sectionId with
  | some g => some (String.mk ("Part ".data ++ g))
  | none =>
    match chpOfId sectionId with
    | some g => some (String.mk ("Chapter ".data ++ g))
    | none => none

/-- `/<[^>]+>/g → ' '` — the tag-stripping pass of `stripHtml`.  A `<` with
no following `>` (or immediately followed by `>`) is not a tag and is kept;
otherwise the span up to the first `>` is replaced by one space.  Structural
fuel: every step consumes at least one character. -/
def replaceTagsF : Nat → List Char → List Char
  | 0, s => s
  | _ + 1, [] => []
  | fuel + 1, '<' :: rest =>
    match rest.dropWhile (fun c => c ≠ '>') with
    | _ :: after =>
      if (rest.takeWhile (fun c => c ≠ '>')).isEmpty then
        '<' :: replaceTagsF fuel rest
      else ' ' :: replaceTagsF fuel after
    | [] => '<' :: replaceTagsF fuel rest
  | fuel + 1, c :: rest => c :: replaceTagsF fuel rest

def replaceTags (s : List Char) : List Char :=
  replaceTagsF (s.length + 1) s

/-- One global literal replacement pass (`String.prototype.replace` with a
literal global pattern): leftmost, non-overlapping.  Structural fuel: every
step consumes at least one character. -/
def replTokF : Nat → Char → List Char → List Char → List Char → List Char
  | 0, _, _, _, s => s
  | _ + 1, _, _, _, [] => []
  | fuel + 1, p, ps, rep, c :: rest =>
    if startsWithCS (p :: ps) (c :: rest) then
      rep ++ replTokF fuel p ps rep (rest.drop ps.length)
    else c :: replTokF fuel p ps rep rest

def replAll (pat rep : List Char) (s : List Char) : List Char :=
  match pat with
  | [] => s
  | p :: ps => replTokF (s.length + 1) p ps rep s

/-- `\s+` to a single space — the whitespace-collapsing pass of `stripHtml`.
Structural fuel: every step consumes at least one character. -/
def collapseWsF : Nat → List Char → List Char
  | 0, s => s
  | _ + 1, [] => []
  | fuel + 1, c :: rest =>
    if jsWs c then ' ' :: collapseWsF fuel (rest.dropWhile jsWs)
    else c :: collapseWsF fuel rest

def collapseWs (s : List Char) : List Char :=
  collapseWsF (s.length + 1) s

/-- `stripHtml` (parser.ts): strip tags, decode the listed entities,
collapse whitespace, trim — in source order. -/
def stripHtml (html : List Char) : List Char :=
  trimJS (collapseWs (replAll "\u00a0".data " ".data
    (replAll "&#39;".data "'".data
      (replAll "&quot;".data "\"".data
        (replAll "&gt;".data ">".data
          (replAll "&lt;".data "<".data
            (replAll "&amp;".data "&".data
              (replAll "&nbsp;".data " ".data
                (replaceTags html)))))))))

/-- Match one `<span class="akn-p"[^>]*>[^<]*<\/span>` element at the current
position; returns the full matched text and the rest.  (`dropWhile (· ≠ c)`
can only stop at `c` or at the end, so the forced greedy runs are exact.) -/
def matchAknPAt (s : List Char) : Option (List Char × List Char) := do
  let s1 ← dropLit "<span class=\"akn-p\"".data s
  match s1.dropWhile (fun c => c ≠ '>') with
  | [] => none
  | _ :: s2 =>
    match dropLit "</span>".data (s2.dropWhile (fun c => c ≠ '<')) with
    | none => none
    | some s3 => some (s.take (s.length - s3.length), s3)

theorem matchAknPAt_length_lt {s : List Char} {q : List Char × List Char}
    (h : matchAknPAt s = some q) : q.2.length < s.length := by
  unfold matchAknPAt at h
  simp only [Option.bind_eq_bind, Option.bind_eq_some] at h
  obtain ⟨s1, h1, hrest⟩ := h
  have e1 := dropLit_length_lt h1
  rcases hd : s1.dropWhile (fun c => c ≠ '>') with _ | ⟨c, s2⟩ <;>
    rw [hd] at hrest <;> dsimp only at hrest
  · cases hrest
  · have e2 : (c :: s2).length ≤ s1.length := by
      rw [← hd]; exact len_dropWhile_le _ _
    rcases hd2 : dropLit "</span>".data (s2.dropWhile (fun c => c ≠ '<')) with
      _ | s3 <;> rw [hd2] at hrest <;> dsimp only at hrest
    · cases hrest
    · cases hrest
      have e3 := dropLit_length_le hd2
      have e4 := len_dropWhile_le (fun c => c ≠ '<') s2
      simp only [List.length_cons] at e2
      dsimp only
      omega

/-- All (non-overlapping, leftmost) akn-p elements —
`sectionHtml.match(/.../g) ?? []`.  Structural fuel: by
`matchAknPAt_length_lt` every step consumes at least one character. -/
def findAknPF : Nat → List Char → List (List Char)
  | 0, _ => []
  | _ + 1, [] => []
  | fuel + 1, c :: rest =>
    match matchAknPAt (c :: rest) with
    | some q => q.1 :: findAknPF fuel q.2
    | none => findAknPF fuel rest

def findAknP (s : List Char) : List (List Char) :=
  findAknPF (s.length + 1) s

/-- The defining-clause pattern of `extractDefinitions`:
`/^["“]([^"”]+)["”]\s+(means|includes|has the meaning)\s+(.+)/i`;
yields the captured term and definition (groups 1 and 3). -/
def defRx : Rx (List Char × List Char) := do
  let _ ← Rx.cls (fun c => c == '"' || c == '“')
  let term ← Rx.many1G (fun c => !(c == '"' || c == '”'))
  let _ ← Rx.cls (fun c => c == '"' || c == '”')
  let _ ← Rx.many1G jsWs
  Rx.orelse (Rx.litCI "means".data)
    (Rx.orelse (Rx.litCI "includes".data) (Rx.litCI "has the meaning".data))
  let _ ← Rx.many1G jsWs
  let defn ← Rx.many1G jsDot
  Rx.pur (term, defn)

/-- `.replace(/;$/, '')` — strip one trailing semicolon. -/
def stripSemi (s : List Char) : List Char :=
  match s.reverse with
  | ';' :: r => r.reverse
  | _ => s

/-- A `ParsedDefinition` of the extractor. -/
structure ParsedDefinition where
  term : String
  definition : String
  source_provision : Option String
deriving DecidableEq, Repr

/-- `extractDefinitions` (parser.ts): for every akn-p element of the section,
strip markup and try the defining-clause pattern; keep non-empty terms with
definitions longer than 5 characters, tagged with the section's provision
reference. -/
def extractDefinitions (sectionHtml : List Char) (sourceProvision : String) :
    List ParsedDefinition :=
  (findAknP sectionHtml).filterMap fun p =>
    match Rx.runPre defRx (stripHtml p) with
    | some (term, defn) =>
      let t := trimJS term
      let d := trimJS (stripSemi defn)
      if 0 < t.length && 5 < d.length then
        some ⟨String.mk t, String.mk d, some sourceProvision⟩
      else none
    | none => none

/-- The static catalog entry type (`ActIndexEntry`, parser.ts). -/
structure ActIndexEntry where
  id : String
  title : String
  titleEn : String
  shortName : String
  status : String
  issuedDate : String
  inForceDate : String
  url : String
  aknNumber : String
  aknYear : String
  description : Option String
deriving DecidableEq, Repr

/-- A `ParsedProvision` of the extractor. -/
structure ParsedProvision where
  provision_ref : String
  chapter : Option String
  «section» : String
  title : String
  content : String
deriving DecidableEq, Repr

/-- A `ParsedAct` — the seed artifact written per statute. -/
structure ParsedAct where
  id : String
  type : String
  title : String
  title_en : String
  short_name : String
  status : String
  issued_date : String
  in_force_date : String
  url : String
  description : Option String
  provisions : List ParsedProvision
  definitions : List ParsedDefinition
deriving DecidableEq, Repr

/-- The per-section body of the extraction loop: the optional emitted
provision (only when the stripped content exceeds 10 characters, capped at
12 000 characters) and the opportunistically extracted definitions (whenever
the title contains "interpretation"/"definition", with no content-length
condition). -/
def processSection (idv span : List Char) :
    Option ParsedProvision × List ParsedDefinition :=
  match firstH3 span with
  | none => (none, [])
  | some h =>
    match extractSectionNumber (trimJS h) with
    | none => (none, [])
    | some num =>
      ((if 10 < (stripHtml (removeFirstH3Star span)).length then
          some { provision_ref :=
                   (if hasSub "__art_".data idv then "art" else "s") ++
                     String.mk num,
                 chapter := extractChapter idv,
                 «section» := String.mk num,
                 title := String.mk (extractSectionTitle (trimJS h)),
                 content := String.mk
                   ((stripHtml (removeFirstH3Star span)).take 12000) }
        else none),
       (if hasSub "interpretation".data
            (lowerStr (extractSectionTitle (trimJS h))) ||
          hasSub "definition".data
            (lowerStr (extractSectionTitle (trimJS h))) then
          extractDefinitions span
            ((if hasSub "__art_".data idv then "art" else "s") ++
              String.mk num)
        else []))

/-- Fold the per-section results in document order (the single `for` loop of
the source pushes to both arrays). -/
def parseSections :
    List (List Char × List Char) → List ParsedProvision × List ParsedDefinition
  | [] => ([], [])
  | (idv, span) :: rest =>
    ((match (processSection idv span).1 with
      | some p => p :: (parseSections rest).1
      | none => (parseSections rest).1),
     (processSection idv span).2 ++ (parseSections rest).2)

/-- `parseKenyaLawHtml` (parser.ts). -/
def parseKenyaLawHtml (html : String) (act : ActIndexEntry) : ParsedAct :=
  let r := parseSections (sectionSpans html.data)
  { id := act.id, type := "statute", title := act.title,
    title_en := act.titleEn, short_name := act.shortName,
    status := act.status, issued_date := act.issuedDate,
    in_force_date := act.inForceDate, url := act.url,
    description := act.description, provisions := r.1, definitions := r.2 }

/-- The definitions of one section span, written with no reference to the
content-length emission guard (for the guard-independence statement). -/
def spanDefs (idv span : List Char) : List ParsedDefinition :=
  match firstH3 span with
  | none => []
  | some h =>
    match extractSectionNumber (trimJS h) with
    | none => []
    | some num =>
      if hasSub "interpretation".data
          (lowerStr (extractSectionTitle (trimJS h))) ||
        hasSub "definition".data
          (lowerStr (extractSectionTitle (trimJS h))) then
        extractDefinitions span
          ((if hasSub "__art_".data idv then "art" else "s") ++ String.mk num)
      else []

/-- All definitions of a document, independently of provision emission. -/
def sectionDefinitions (html : String) : List ParsedDefinition :=
  (sectionSpans html.data).flatMap fun x => spanDefs x.1 x.2


/-! ## Claims

One theorem per claim of the specification audit, with counterexamples and
witnesses where applicable. -/

/-- Whatever the store, `parseCitation` of a whitespace-only string falls
through all four grammar shapes to the fallback, with the empty trimmed
string as the document reference. -/
theorem parseCitation_ws {input : String} (h : trimJS input.data = []) :
    parseCitation input = ⟨"", none⟩ := by
  unfold parseCitation
  rw [h]
  rfl

/-- `resolveDocumentId` refuses the empty reference without touching the
store. -/
theorem resolveDocumentId_empty (docs : List Document) :
    resolveDocumentId docs "" = none := by
  rfl

/-- C1 (amended): an empty or whitespace-only citation is *not* reported as a
citation-grammar parse failure; the grammar's fallback makes the whole
(empty) trimmed string the document reference, resolution refuses it, and the
tool returns invalid with the single warning `Document not found: ""`. -/
theorem C1_theorem (docs : List Document) (provs : List Provision)
    (input : String) (h : trimJS input.data = []) :
    validateCitationTool docs provs input =
      some { valid := false, citation := input, normalized := none,
             document_id := none, document_title := none,
             provision_ref := none, status := none,
             warnings := ["Document not found: \"\""] } := by
  unfold validateCitationTool
  rw [parseCitation_ws h]
  rfl

/-- C1 witness: the amended claim at the concrete whitespace input `"   "`. -/
theorem C1_witness :
    validateCitationTool [] [] "   " =
      some { valid := false, citation := "   ", normalized := none,
             document_id := none, document_title := none,
             provision_ref := none, status := none,
             warnings := ["Document not found: \"\""] } :=
  C1_theorem [] [] "   " (by decide)

/-- C1 counterexample: at the empty citation the warning list is
`["Document not found: \"\""]` — the claimed warning
`"Could not parse citation format"` does not appear. -/
theorem C1_counterexample :
    validateCitationTool [] [] "" =
      some { valid := false, citation := "", normalized := none,
             document_id := none, document_title := none,
             provision_ref := none, status := none,
             warnings := ["Document not found: \"\""] } ∧
    ¬ ("Could not parse citation format" ∈ ["Document not found: \"\""]) := by
  exact ⟨by rfl, by decide⟩

/-- The three statuses the validator recognises each push one advisory
warning. -/
theorem statusWarnings_ne_nil {st : String}
    (h : st = "repealed" ∨ st = "amended" ∨ st = "partially_suspended") :
    statusWarnings st ≠ [] := by
  rcases h with h | h | h <;> subst h <;> decide

/-- C2 (amended): a citation that parses and resolves to a document whose
status is `repealed`, `amended` or `partially_suspended` always yields a
non-empty warning list; `not_yet_in_force` (the fourth non-`in_force`
status) yields none — see the counterexample. -/
theorem C2_theorem (docs : List Document) (provs : List Provision)
    (input : String) (docId : String) (doc : Document)
    (r : ValidateCitationResult)
    (hres : resolveDocumentId docs (parseCitation input).documentRef =
      some docId)
    (hdoc : docs.find? (fun d => d.id == docId) = some doc)
    (hst : doc.status = "repealed" ∨ doc.status = "amended" ∨
      doc.status = "partially_suspended")
    (hv : validateCitationTool docs provs input = some r) :
    r.warnings ≠ [] := by
  have hw := statusWarnings_ne_nil hst
  unfold validateCitationTool at hv
  rw [hres] at hv
  dsimp only at hv
  rw [hdoc] at hv
  dsimp only at hv
  cases hsec : (parseCitation input).sectionRef with
  | none =>
    rw [hsec] at hv
    cases hv
    exact hw
  | some sref =>
    rw [hsec] at hv
    dsimp only at hv
    cases hfind : provs.find? (fun p => p.document_id == docId &&
        (p.provision_ref == sref || p.provision_ref == "s" ++ sref ||
          p.provision_ref == "art" ++ sref || p.«section» == sref)) with
    | none =>
      rw [hfind] at hv
      cases hv
      simp
    | some provision =>
      rw [hfind] at hv
      cases hv
      exact hw

/-- A store whose only document is not yet in force, with one provision. -/
def c2docs : List Document :=
  [⟨"future-act", "Future Act", "FA", "Future Act", "not_yet_in_force"⟩]

def c2provs : List Provision := [⟨"future-act", "s1", "1"⟩]

/-- A store whose only document is repealed. -/
def c2repDocs : List Document :=
  [⟨"old-act", "Old Act", "OA", "Old Act", "repealed"⟩]

/-- C2 witness: citing the repealed document yields the repeal warning. -/
theorem C2_witness :
    (ValidateCitationResult.mk true "Old Act" (some "Old Act")
      (some "old-act") (some "Old Act") none (some "repealed")
      ["WARNING: This statute has been repealed."]).warnings ≠ [] :=
  C2_theorem c2repDocs [] "Old Act" "old-act"
    ⟨"old-act", "Old Act", "OA", "Old Act", "repealed"⟩ _
    (by decide) (by decide) (Or.inl rfl) (by decide)

/-- C2 counterexample: a citation that parses and resolves to a document
whose lifecycle status is `not_yet_in_force` (hence not `in_force`) comes
back valid with an *empty* warning list. -/
theorem C2_counterexample :
    validateCitationTool c2docs c2provs "Section 1, Future Act" =
      some { valid := true, citation := "Section 1, Future Act",
             normalized := some "Section 1, Future Act",
             document_id := some "future-act",
             document_title := some "Future Act",
             provision_ref := some "s1", status := some "not_yet_in_force",
             warnings := [] } := by
  decide

/-- C3 (amended): the parse/format round-trip preserves the document
reference and the provision number for the comma-connector leading shapes,
the trailing shapes and the bare-title shape (one representative citation of
each); the `of [the]` connector of the leading shapes breaks it — see the
counterexample. -/
theorem C3_theorem :
    parseCitation
        (formatCitationTool "Section 25, Data Protection Act 2019" none).formatted =
      parseCitation "Section 25, Data Protection Act 2019" ∧
    parseCitation
        (formatCitationTool "Article 31, Constitution of Kenya 2010" none).formatted =
      parseCitation "Article 31, Constitution of Kenya 2010" ∧
    parseCitation
        (formatCitationTool "Data Protection Act 2019, Section 25" none).formatted =
      parseCitation "Data Protection Act 2019, Section 25" ∧
    parseCitation
        (formatCitationTool "Constitution of Kenya 2010, Article 31" none).formatted =
      parseCitation "Constitution of Kenya 2010, Article 31" ∧
    parseCitation
        (formatCitationTool "Data Protection Act 2019" none).formatted =
      parseCitation "Data Protection Act 2019" := by
  exact ⟨by decide, by decide, by decide, by decide, by decide⟩

/-- C3 counterexample: for the supported grammar shape
`Section N of the <Act>`, the formatter's default full mode leaves `of the`
attached to the law name, so re-parsing the rendered citation yields a
different document reference — and not merely by a leading "the". -/
theorem C3_counterexample :
    parseCitation "Section 25 of the Data Protection Act, 2019" =
      ⟨"Data Protection Act, 2019", some "25"⟩ ∧
    (formatCitationTool "Section 25 of the Data Protection Act, 2019"
        none).formatted = "Section 25, of the Data Protection Act, 2019" ∧
    parseCitation (formatCitationTool
        "Section 25 of the Data Protection Act, 2019" none).formatted =
      ⟨"of the Data Protection Act, 2019", some "25"⟩ ∧
    String.mk (stripLeadingThe "of the Data Protection Act, 2019".data) ≠
      "Data Protection Act, 2019" := by
  exact ⟨by decide, by decide, by decide, by decide⟩

/-! ### C4 — the resolver cascade and the case-sensitivity of step (4) -/

theorem toNat_lowAscii_of_upper {c : Char} (h : 'A' ≤ c ∧ c ≤ 'Z') :
    (Rx.lowAscii c).toNat = c.toNat + 32 := by
  have h1 : c.toNat ≤ 90 := h.2
  have hv : (c.toNat + 32).isValidChar := by left; omega
  unfold Rx.lowAscii
  rw [if_pos h, Char.ofNat, dif_pos hv]
  rfl

theorem toNat_lowAscii_bounds {c : Char} (h : 'A' ≤ c ∧ c ≤ 'Z') :
    97 ≤ (Rx.lowAscii c).toNat ∧ (Rx.lowAscii c).toNat ≤ 122 := by
  have h1 : 65 ≤ c.toNat := h.1
  have h2 : c.toNat ≤ 90 := h.2
  rw [toNat_lowAscii_of_upper h]
  omega

theorem lowAscii_idem (c : Char) :
    Rx.lowAscii (Rx.lowAscii c) = Rx.lowAscii c := by
  by_cases h : 'A' ≤ c ∧ c ≤ 'Z'
  · have hb := toNat_lowAscii_bounds h
    have hne : ¬('A' ≤ Rx.lowAscii c ∧ Rx.lowAscii c ≤ 'Z') := by
      rintro ⟨-, hz⟩
      have hz' : (Rx.lowAscii c).toNat ≤ 90 := hz
      omega
    have e : Rx.lowAscii (Rx.lowAscii c) =
        if 'A' ≤ Rx.lowAscii c ∧ Rx.lowAscii c ≤ 'Z' then
          Char.ofNat ((Rx.lowAscii c).toNat + 32)
        else Rx.lowAscii c := rfl
    rw [e, if_neg hne]
  · have hc : Rx.lowAscii c = c := by
      unfold Rx.lowAscii
      rw [if_neg h]
    rw [hc]
    exact hc

/-- A character that is neither an ASCII lower-case letter nor an ASCII
upper-case letter (such as `%` and `_`) is hit by `lowAscii c` only when
`c` is that character itself. -/
theorem lowAscii_eq_iff_special {c d : Char}
    (hd1 : d.toNat < 97 ∨ 122 < d.toNat) (hd2 : d.toNat < 65 ∨ 90 < d.toNat) :
    (Rx.lowAscii c = d) ↔ (c = d) := by
  constructor
  · intro he
    by_cases h : 'A' ≤ c ∧ c ≤ 'Z'
    · exfalso
      have hb := toNat_lowAscii_bounds h
      rw [he] at hb
      omega
    · unfold Rx.lowAscii at he
      rw [if_neg h] at he
      exact he
  · intro he
    subst he
    have h : ¬('A' ≤ c ∧ c ≤ 'Z') := by
      rintro ⟨h1, h2⟩
      have h1' : 65 ≤ c.toNat := h1
      have h2' : c.toNat ≤ 90 := h2
      omega
    unfold Rx.lowAscii
    rw [if_neg h]

theorem lowAscii_eq_pct (c : Char) : (Rx.lowAscii c = '%') ↔ (c = '%') :=
  lowAscii_eq_iff_special (by left; decide) (by left; decide)

theorem lowAscii_eq_us (c : Char) : (Rx.lowAscii c = '_') ↔ (c = '_') :=
  lowAscii_eq_iff_special (by left; decide) (by right; decide)

theorem likeMatchF_lower (fuel : Nat) :
    ∀ (p s : List Char),
      likeMatchF fuel (List.map Rx.lowAscii p) (List.map Rx.lowAscii s) =
        likeMatchF fuel p s := by
  induction fuel with
  | zero => intro p s; rfl
  | succ fuel ih =>
    intro p s
    cases p with
    | nil => cases s <;> rfl
    | cons p ps =>
      by_cases hp : p = '%'
      · subst hp
        cases s with
        | nil => exact congrArg (fun a => a || false) (ih ps [])
        | cons c s2 =>
          exact congrArg₂ (fun a b => a || b) (ih ps (c :: s2))
            (ih ('%' :: ps) s2)
      · have hp' : ¬(Rx.lowAscii p = '%') :=
          fun hh => hp ((lowAscii_eq_pct p).mp hh)
        by_cases hu : p = '_'
        · subst hu
          cases s with
          | nil => rfl
          | cons c s2 => exact ih ps s2
        · have hu' : ¬(Rx.lowAscii p = '_') :=
            fun hh => hu ((lowAscii_eq_us p).mp hh)
          cases s with
          | nil =>
            simp only [List.map_nil, likeMatchF]
            rw [if_neg hp', if_neg hu', if_neg hp, if_neg hu]
          | cons c s2 =>
            simp only [List.map_cons, likeMatchF]
            rw [if_neg hp', if_neg hu', if_neg hp, if_neg hu]
            rw [lowAscii_idem p, lowAscii_idem c, ih ps s2]

theorem likeMatch_lower (p s : List Char) :
    likeMatch (List.map Rx.lowAscii p) (List.map Rx.lowAscii s) =
      likeMatch p s := by
  unfold likeMatch
  rw [List.length_map, List.length_map]
  exact likeMatchF_lower _ p s

/-- C4 (amended): the resolver tries its strategies in the fixed order
(1) exact id, (2) case-insensitive exact title, (3) case-insensitive exact
short name, (4) substring over title/short name/English title, each step only
when every earlier one produced nothing — but step (4), SQLite's default
`LIKE`, is ASCII-case-*insensitive*, and step (5) (the same match through
`LOWER`) can therefore never produce a result when step (4) failed: the
five-step source cascade equals the four-step cascade
`resolveDocumentIdAmended`. -/
theorem C4_theorem (docs : List Document) (input : String) :
    resolveDocumentId docs input = resolveDocumentIdAmended docs input := by
  unfold resolveDocumentId resolveDocumentIdAmended
  by_cases he : (trimJS input.data).isEmpty
  · rw [if_pos he, if_pos he]
  · rw [if_neg he, if_neg he]
    have hpred : (fun d : Document =>
        likeMatch (lowerStr ('%' :: (trimJS input.data ++ ['%'])))
          (lowerStr d.title.data) ||
          likeMatch (lowerStr ('%' :: (trimJS input.data ++ ['%'])))
            (lowerStr d.short_name.data) ||
          likeMatch (lowerStr ('%' :: (trimJS input.data ++ ['%'])))
            (lowerStr d.title_en.data)) =
        (fun d : Document =>
          likeMatch ('%' :: (trimJS input.data ++ ['%'])) d.title.data ||
            likeMatch ('%' :: (trimJS input.data ++ ['%']))
              d.short_name.data ||
            likeMatch ('%' :: (trimJS input.data ++ ['%']))
              d.title_en.data) := by
      funext d
      simp only [lowerStr]
      rw [likeMatch_lower, likeMatch_lower, likeMatch_lower]
    rw [hpred]
    cases docs.find? (fun d => d.id.data == trimJS input.data) with
    | some d => rfl
    | none =>
      cases docs.find?
          (fun d => lowerStr d.title.data == lowerStr (trimJS input.data)) with
      | some d => rfl
      | none =>
        cases docs.find? (fun d =>
            lowerStr d.short_name.data == lowerStr (trimJS input.data)) with
        | some d => rfl
        | none =>
          cases docs.find? (fun d =>
              likeMatch ('%' :: (trimJS input.data ++ ['%'])) d.title.data ||
                likeMatch ('%' :: (trimJS input.data ++ ['%']))
                  d.short_name.data ||
                likeMatch ('%' :: (trimJS input.data ++ ['%']))
                  d.title_en.data) with
          | some d => rfl
          | none => rfl

/-- Two documents separating the claimed case-sensitive step (4) from the
actual case-insensitive one: only the second title contains the query as a
case-sensitive substring, but the first already matches case-insensitively. -/
def c4docs : List Document :=
  [⟨"d1", "DATA PROTECTION ACT", "Z1", "Z1", "in_force"⟩,
   ⟨"d2", "contains data protection act inside", "Z2", "Z2", "in_force"⟩]

/-- C4 counterexample: on `c4docs` the source resolver (SQLite `LIKE`,
case-insensitive) picks `d1` at step (4), while the cascade the claim
describes (case-sensitive step (4)) picks `d2` — the claim mispredicts the
result. -/
theorem C4_counterexample :
    resolveDocumentId c4docs "data protection" = some "d1" ∧
    resolveDocumentIdClaimed c4docs "data protection" = some "d2" := by
  exact ⟨by decide, by decide⟩

/-! ### C5 — chapter derivation from the section element id -/

/-- A catalog entry for the extractor theorems. -/
def dpaAct : ActIndexEntry :=
  ⟨"data-protection-act-2019", "Data Protection Act 2019",
   "Data Protection Act 2019", "DPA 2019", "in_force", "2019-11-08",
   "2019-11-25", "https://new.kenyalaw.org/akn/ke/act/2019/24/", "24", "2019",
   none⟩

/-- Markup whose section element id *is* `part_III__sec_25`. -/
def c5html : String :=
  "<section class=\"akn-section\" id=\"part_III__sec_25\" data-eid=\"sec_25\"><h3>25. Principles of data protection</h3><span class=\"akn-p\">Every data controller shall ensure that personal data is processed lawfully.</span></section>"

/-- The same markup with an id that merely *contains* `part_III__sec_25`
without starting with `part_`. -/
def c5htmlPre : String :=
  "<section class=\"akn-section\" id=\"akn_part_III__sec_25\" data-eid=\"sec_25\"><h3>25. Principles of data protection</h3><span class=\"akn-p\">Every data controller shall ensure that personal data is processed lawfully.</span></section>"

set_option maxRecDepth 8000 in
/-- C5 (amended): the chapter label is derived from the *prefix* of the
element id (`^part_([^_]+)__`), not from a substring: a section whose id is
`part_III__sec_25` with heading `25. Principles of data protection` yields
section "25", title "Principles of data protection", chapter "Part III" and
provision_ref "s25". -/
theorem C5_theorem :
    (parseKenyaLawHtml c5html dpaAct).provisions =
      [{ provision_ref := "s25", chapter := some "Part III",
         «section» := "25", title := "Principles of data protection",
         content := "Every data controller shall ensure that personal data is processed lawfully." }] := by
  decide

set_option maxRecDepth 8000 in
/-- C5 counterexample: an id that *contains* `part_III__sec_25` but does not
start with `part_` (here `akn_part_III__sec_25`) yields the same provision
with *no* chapter — the claim's "id contains part_III__sec_25" premise is too
weak. -/
theorem C5_counterexample :
    hasSub "part_III__sec_25".data "akn_part_III__sec_25".data = true ∧
    (parseKenyaLawHtml c5htmlPre dpaAct).provisions =
      [{ provision_ref := "s25", chapter := none,
         «section» := "25", title := "Principles of data protection",
         content := "Every data controller shall ensure that personal data is processed lawfully." }] := by
  exact ⟨by decide, by decide⟩

/-! ### C6 — formatter fallback when no section token is found -/

theorem fmtSection_none {t : List Char}
    (h1 : Rx.run fmtSecFirst t = none) (h2 : Rx.run secLastV t = none)
    (h3 : Rx.run fmtArtFirst t = none) (h4 : Rx.run artLastV t = none) :
    fmtSection t = none := by
  unfold fmtSection
  rw [h1, h2, h3, h4]
  rfl

theorem fmtLaw_of_none {t : List Char}
    (h1 : Rx.run fmtSecFirst t = none) (h2 : Rx.run secLastV t = none)
    (h3 : Rx.run fmtArtFirst t = none) (h4 : Rx.run artLastV t = none) :
    fmtLaw t = t := by
  unfold fmtLaw
  rw [h1, h2, h3, h4]
  rfl

/-- C6 (amended): when none of the four formatter shapes finds a section
token on the trimmed citation, every presentation mode returns the *trimmed*
input as the formatted result — not the input unchanged: leading/trailing
whitespace is stripped before matching (counterexample below). -/
theorem C6_theorem (input : String) (fmt? : Option FmtMode)
    (h1 : Rx.run fmtSecFirst (trimJS input.data) = none)
    (h2 : Rx.run secLastV (trimJS input.data) = none)
    (h3 : Rx.run fmtArtFirst (trimJS input.data) = none)
    (h4 : Rx.run artLastV (trimJS input.data) = none) :
    (formatCitationTool input fmt?).formatted =
      String.mk (trimJS input.data) := by
  unfold formatCitationTool
  dsimp only
  rw [fmtSection_none h1 h2 h3 h4, fmtLaw_of_none h1 h2 h3 h4]
  cases fmt?.getD FmtMode.full <;> rfl

/-- C6 witness: the amended claim at `"  Hello World  "` in default mode. -/
theorem C6_witness :
    (formatCitationTool "  Hello World  " none).formatted =
      String.mk (trimJS "  Hello World  ".data) :=
  C6_theorem "  Hello World  " none (by decide) (by decide) (by decide)
    (by decide)

/-- C6 counterexample: `"  Hello World  "` matches none of the four shapes,
yet no mode returns it unchanged — all three return the trimmed
`"Hello World"`. -/
theorem C6_counterexample :
    Rx.run fmtSecFirst (trimJS "  Hello World  ".data) = none ∧
    Rx.run secLastV (trimJS "  Hello World  ".data) = none ∧
    Rx.run fmtArtFirst (trimJS "  Hello World  ".data) = none ∧
    Rx.run artLastV (trimJS "  Hello World  ".data) = none ∧
    (formatCitationTool "  Hello World  " (some .full)).formatted =
      "Hello World" ∧
    (formatCitationTool "  Hello World  " (some .short)).formatted =
      "Hello World" ∧
    (formatCitationTool "  Hello World  " (some .pinpoint)).formatted =
      "Hello World" ∧
    ("Hello World" : String) ≠ "  Hello World  " := by
  exact ⟨by decide, by decide, by decide, by decide, by decide, by decide,
    by decide, by decide⟩

/-! ### C7 — resolving an already-canonical identifier -/

/-- C7 (amended): a stored identifier that carries no leading or trailing
whitespace (and is non-empty) resolves to itself through the exact-identifier
step.  Idempotence as literally claimed fails for a stored identifier that
the resolver's initial trim changes — see the counterexample. -/
theorem C7_theorem (docs : List Document) (input : String) (d : Document)
    (hmem : d ∈ docs) (hid : d.id = input)
    (htrim : trimJS input.data = input.data) (hne : input.data ≠ []) :
    resolveDocumentId docs input = some input := by
  unfold resolveDocumentId
  rw [htrim]
  rw [if_neg (by simp [List.isEmpty_iff, hne])]
  cases hf : docs.find? (fun d => d.id.data == input.data) with
  | none =>
    exfalso
    have hall := List.find?_eq_none.mp hf d hmem
    rw [hid] at hall
    simp at hall
  | some d2 =>
    have hp := List.find?_some hf
    have : d2.id = input := by
      have hdata : d2.id.data = input.data := by
        exact beq_iff_eq.mp hp
      cases hcid : d2.id with
      | mk l =>
        cases hcin : input with
        | mk l2 =>
          rw [hcid, hcin] at hdata
          simp at hdata
          rw [hdata]
    dsimp only
    rw [this]

/-- A store whose only document has a whitespace-prefixed identifier. -/
def c7docs : List Document := [⟨" x", "Alpha", "Beta", "Gamma", "in_force"⟩]

/-- A store with one canonically-identified document. -/
def c7store : List Document :=
  [⟨"data-protection-act-2019", "Data Protection Act 2019", "DPA 2019",
    "Data Protection Act 2019", "in_force"⟩]

/-- C7 witness: the canonical identifier resolves to itself. -/
theorem C7_witness :
    resolveDocumentId c7store "data-protection-act-2019" =
      some "data-protection-act-2019" :=
  C7_theorem c7store "data-protection-act-2019"
    ⟨"data-protection-act-2019", "Data Protection Act 2019", "DPA 2019",
      "Data Protection Act 2019", "in_force"⟩
    (by decide) rfl (by decide) (by decide)

/-- C7 counterexample: the identifier `" x"` (with a leading space) is the id
of a stored document, yet resolving it returns `none`, not itself — the
resolver trims its input before the exact-identifier lookup. -/
theorem C7_counterexample :
    c7docs.any (fun d => d.id == " x") = true ∧
    resolveDocumentId c7docs " x" = none := by
  exact ⟨by decide, by decide⟩

/-! ### C8 — the content cap and the emission guard -/

theorem mem_parseSections_fst {L : List (List Char × List Char)}
    {p : ParsedProvision} (hp : p ∈ (parseSections L).1) :
    ∃ x ∈ L, (processSection x.1 x.2).1 = some p := by
  induction L with
  | nil => simp [parseSections] at hp
  | cons hd tl ih =>
    obtain ⟨idv, span⟩ := hd
    unfold parseSections at hp
    dsimp only at hp
    cases hps : (processSection idv span).1 with
    | some q =>
      rw [hps] at hp
      rcases List.mem_cons.mp hp with h | h
      · exact ⟨(idv, span), List.mem_cons_self _ _, by rw [hps, h]⟩
      · obtain ⟨x, hx, he⟩ := ih h
        exact ⟨x, List.mem_cons_of_mem _ hx, he⟩
    | none =>
      rw [hps] at hp
      obtain ⟨x, hx, he⟩ := ih hp
      exact ⟨x, List.mem_cons_of_mem _ hx, he⟩

theorem processSection_content {idv span : List Char} {p : ParsedProvision}
    (h : (processSection idv span).1 = some p) :
    ∃ raw : List Char, 10 < raw.length ∧
      p.content = String.mk (raw.take 12000) := by
  unfold processSection at h
  cases h1 : firstH3 span with
  | none => rw [h1] at h; cases h
  | some hh =>
    rw [h1] at h
    dsimp only at h
    cases h2 : extractSectionNumber (trimJS hh) with
    | none => rw [h2] at h; cases h
    | some num =>
      rw [h2] at h
      dsimp only at h
      by_cases hlen : 10 < (stripHtml (removeFirstH3Star span)).length
      · rw [if_pos hlen] at h
        cases h
        exact ⟨stripHtml (removeFirstH3Star span), hlen, rfl⟩
      · rw [if_neg hlen] at h
        cases h

/-- C8: every provision emitted by `parseKenyaLawHtml` comes from stripped
content strictly longer than 10 characters (the emission guard), and the
stored content is that content deterministically cut at the 12 000-character
cap — so its length always exceeds 10 and never exceeds 12 000. -/
theorem C8_theorem (html : String) (act : ActIndexEntry) (p : ParsedProvision)
    (hp : p ∈ (parseKenyaLawHtml html act).provisions) :
    (∃ raw : List Char, 10 < raw.length ∧
      p.content = String.mk (raw.take 12000)) ∧
    10 < p.content.length ∧ p.content.length ≤ 12000 := by
  have hp2 : p ∈ (parseSections (sectionSpans html.data)).1 := hp
  obtain ⟨x, hx, he⟩ := mem_parseSections_fst hp2
  obtain ⟨raw, hraw, hc⟩ := processSection_content he
  have hlen : p.content.length = (raw.take 12000).length := by rw [hc]; rfl
  rw [List.length_take] at hlen
  exact ⟨⟨raw, hraw, hc⟩, by omega, by omega⟩

/-- The provision extracted from `c5html`. -/
def c8prov : ParsedProvision :=
  ⟨"s25", some "Part III", "25", "Principles of data protection",
   "Every data controller shall ensure that personal data is processed lawfully."⟩

set_option maxRecDepth 8000 in
/-- C8 witness: the guarantee at the concrete provision of `c5html`. -/
theorem C8_witness :
    (∃ raw : List Char, 10 < raw.length ∧
      c8prov.content = String.mk (raw.take 12000)) ∧
    10 < c8prov.content.length ∧ c8prov.content.length ≤ 12000 :=
  C8_theorem c5html dpaAct c8prov (by decide)

/-! ### C9 — resolved identifiers are stored rows; the validator cannot
dereference a missing one -/

theorem cascade_mem {docs : List Document} {x : String}
    (pred : Document → Bool) (rest : Option String)
    (hrest : rest = some x → ∃ d ∈ docs, d.id = x)
    (h : (match docs.find? pred with
          | some d => some d.id
          | none => rest) = some x) :
    ∃ d ∈ docs, d.id = x := by
  cases hf : docs.find? pred with
  | some d =>
    rw [hf] at h
    dsimp only at h
    cases h
    exact ⟨d, List.mem_of_find?_eq_some hf, rfl⟩
  | none =>
    rw [hf] at h
    exact hrest h

theorem resolve_mem {docs : List Document} {input : String} {x : String}
    (h : resolveDocumentId docs input = some x) :
    ∃ d ∈ docs, d.id = x := by
  unfold resolveDocumentId at h
  by_cases he : (trimJS input.data).isEmpty
  · rw [if_pos he] at h; cases h
  · rw [if_neg he] at h
    refine cascade_mem _ _ (fun h2 => ?_) h
    refine cascade_mem _ _ (fun h3 => ?_) h2
    refine cascade_mem _ _ (fun h4 => ?_) h3
    refine cascade_mem _ _ (fun h5 => ?_) h4
    refine cascade_mem _ _ (fun h6 => ?_) h5
    cases h6

theorem find?_isSome_of_mem {α : Type} {l : List α} {p : α → Bool} {a : α}
    (ha : a ∈ l) (hp : p a = true) : (l.find? p).isSome = true := by
  cases hf : l.find? p with
  | none => exact absurd hp (by simpa using List.find?_eq_none.mp hf a ha)
  | some b => rfl

/-- C9: every identifier the resolver returns is the id of a stored row
(first conjunct), so the validator's unconditional
`SELECT id, title, status ... WHERE id = ?` after a successful resolution
always finds a row and the tool never takes the crash path (second
conjunct). -/
theorem C9_theorem (docs : List Document) (provs : List Provision)
    (input : String) :
    (∀ r x, resolveDocumentId docs r = some x →
      (docs.find? (fun d => d.id == x)).isSome = true) ∧
    validateCitationTool docs provs input ≠ none := by
  have hmain : ∀ r x, resolveDocumentId docs r = some x →
      (docs.find? (fun d => d.id == x)).isSome = true := by
    intro r x h
    obtain ⟨d, hd, hid⟩ := resolve_mem h
    exact find?_isSome_of_mem hd (by simp [hid])
  refine ⟨hmain, ?_⟩
  unfold validateCitationTool
  cases hres : resolveDocumentId docs (parseCitation input).documentRef with
  | none => simp
  | some docId =>
    have hs := hmain _ _ hres
    dsimp only
    split
    · next heq =>
        rw [heq] at hs
        cases hs
    · next doc heq =>
        split
        · split
          · simp
          · simp
        · simp

/-- C9 witness: the guarantee at a concrete store and citation. -/
theorem C9_witness :
    (c7store.find? (fun d =>
      d.id == "data-protection-act-2019")).isSome = true ∧
    validateCitationTool c7store [] "Data Protection Act 2019" ≠ none :=
  ⟨(C9_theorem c7store [] "Data Protection Act 2019").1
      "Data Protection Act 2019" "data-protection-act-2019" (by decide),
   (C9_theorem c7store [] "Data Protection Act 2019").2⟩

/-! ### C10 — definition extraction is independent of provision emission -/

theorem processSection_snd (idv span : List Char) :
    (processSection idv span).2 = spanDefs idv span := by
  unfold processSection spanDefs
  cases firstH3 span with
  | none => rfl
  | some h =>
    dsimp only
    cases extractSectionNumber (trimJS h) with
    | none => rfl
    | some num => rfl

theorem parseSections_snd (L : List (List Char × List Char)) :
    (parseSections L).2 = L.flatMap (fun x => (processSection x.1 x.2).2) := by
  induction L with
  | nil => rfl
  | cons hd tl ih =>
    obtain ⟨idv, span⟩ := hd
    unfold parseSections
    dsimp only
    rw [ih]
    simp [List.flatMap_cons]

/-- C10: definition extraction is independent of the provision-emission
guard — the definitions of `parseKenyaLawHtml` equal `sectionDefinitions`,
which never consults the stripped-content length (first conjunct); and every
definition `extractDefinitions` produces carries the provision reference it
was invoked with, i.e. its section's reference, as `source_provision`
(second conjunct). -/
theorem C10_theorem (html : String) (act : ActIndexEntry) :
    (parseKenyaLawHtml html act).definitions = sectionDefinitions html ∧
    ∀ (s : List Char) (ref : String) (d : ParsedDefinition),
      d ∈ extractDefinitions s ref → d.source_provision = some ref := by
  constructor
  · show (parseSections (sectionSpans html.data)).2 = _
    rw [parseSections_snd]
    unfold sectionDefinitions
    have he : (fun x : List Char × List Char => (processSection x.1 x.2).2) =
        (fun x => spanDefs x.1 x.2) :=
      funext fun x => processSection_snd x.1 x.2
    rw [he]
  · intro s ref d hd
    unfold extractDefinitions at hd
    obtain ⟨a, ha, he⟩ := List.mem_filterMap.mp hd
    cases hr : Rx.runPre defRx (stripHtml a) with
    | none => rw [hr] at he; cases he
    | some q =>
      rw [hr] at he
      obtain ⟨term, defn⟩ := q
      dsimp only at he
      split at he
      · cases he
        rfl
      · cases he

/-- Markup with an Interpretation section containing one defining clause. -/
def c10html : String :=
  "<section class=\"akn-section\" id=\"sec_2\" data-eid=\"sec_2\"><h3>2. Interpretation</h3><span class=\"akn-p\">&quot;data&quot; means information relating to an identified person;</span></section>"

set_option maxRecDepth 8000 in
/-- C10 witness: the guarantee at the concrete Interpretation markup. -/
theorem C10_witness :
    (parseKenyaLawHtml c10html dpaAct).definitions =
      sectionDefinitions c10html ∧
    (ParsedDefinition.mk "data"
      "information relating to an identified person"
      (some "s2")).source_provision = some "s2" :=
  ⟨(C10_theorem c10html dpaAct).1,
   (C10_theorem c10html dpaAct).2 c10html.data "s2"
     ⟨"data", "information relating to an identified person", some "s2"⟩
     (by decide)⟩

end KenyaLaw
